import Mathlib

/-!
Verification of the PAcourt document parser (src/extraction.py, src/font.py,
src/parsing.py) against its natural-language specification.

Text is modelled as List Char.  Python floats are modelled by exact rationals:
every comparison exercised by the properties below involves values on which
IEEE doubles and rationals agree.  Python regular expressions used by the
page-break filters are modelled by dedicated deterministic matchers; each
matcher's doc comment records the regex it implements, and the deterministic
reading is equivalent to the backtracking one for these particular patterns.
-/

deriving instance DecidableEq for Except

namespace DocketParser

/-! ### Reader sentinel characters (DocketReader class attributes) -/

/-- DocketReader.terminator -/
def terminator : Char := '\n'

/-- DocketReader.tab -/
def tab : Char := '_'

/-- DocketReader.comes_before -/
def comes_before : Char := '|'

/-- DocketReader.properties_open -/
def properties_open : Char := '['

/-- DocketReader.properties_close -/
def properties_close : Char := ']'

/-- DocketReader.box_wrap -/
def box_wrap : Char := '^'

/-! ### Splitting and joining on the terminator (Python str.split / str.join) -/

/-- Helper for splitting on the terminator: returns the first field and the
remaining fields, so that the full result of Python text.split(terminator)
is the first component consed onto the second. -/
def splitTermAux : List Char → List Char × List (List Char)
  | [] => ([], [])
  | c :: cs =>
    if c = '\n' then ([], (splitTermAux cs).1 :: (splitTermAux cs).2)
    else (c :: (splitTermAux cs).1, (splitTermAux cs).2)

/-- Python text.split(terminator) with terminator a newline. -/
def splitTerm (t : List Char) : List (List Char) :=
  (splitTermAux t).1 :: (splitTermAux t).2

/-- Python terminator.join(lines). -/
def joinTerm : List (List Char) → List Char
  | [] => []
  | [l] => l
  | l :: l2 :: ls => l ++ '\n' :: joinTerm (l2 :: ls)

/-! ### Character classes used by the regex patterns -/

/-- Python regex whitespace class (ASCII part). -/
def isPySpace (c : Char) : Bool :=
  c = ' ' || c = '\t' || c = '\n' || c = '\r' || c = '\x0b' || c = '\x0c'

/-! ### Deterministic matchers for the regexes of parsing.py -/

/-- Consume an expected single character from the front. -/
def expectChar (c : Char) : List Char → Option (List Char)
  | [] => none
  | x :: rest => if x = c then some rest else none

/-- Consume an expected literal from the front. -/
def expectLit : List Char → List Char → Option (List Char)
  | [], rest => some rest
  | c :: cs, rest => (expectChar c rest).bind (expectLit cs)

/-- Consume one or two decimal digits greedily (regex piece matching one or
two digits followed by a slash; greediness is equivalent to backtracking
here because a digit can never satisfy the following slash). -/
def take1or2Digits : List Char → Option (List Char)
  | [] => none
  | c :: rest =>
    if c.isDigit then
      match rest with
      | [] => some []
      | d :: rest2 => if d.isDigit then some rest2 else some rest
    else none

/-- Consume exactly four decimal digits. -/
def take4Digits : List Char → Option (List Char)
  | a :: b :: c :: d :: rest =>
    if a.isDigit && b.isDigit && c.isDigit && d.isDigit then some rest else none
  | _ => none

/-- Python re.match of the compiled printed_date_line_regex of parsing.py:
the word Printed with a colon, optional whitespace, a one-or-two-digit month,
slash, one-or-two-digit day, slash, four-digit year, then any characters that
are not the properties-open bracket, a properties-open bracket, any
characters that are not the properties-close bracket, and a properties-close
bracket.  re.match only anchors at the start, so trailing characters are
ignored. -/
def printed_date_line_match (l : List Char) : Bool :=
  (do
    let r1 ← expectLit (("Printed:").toList) l
    let r2 := r1.dropWhile isPySpace
    let r3 ← take1or2Digits r2
    let r4 ← expectChar '/' r3
    let r5 ← take1or2Digits r4
    let r6 ← expectChar '/' r5
    let r7 ← take4Digits r6
    let r8 := r7.dropWhile (fun c => !(c = '['))
    let r9 ← expectChar '[' r8
    let r10 := r9.dropWhile (fun c => !(c = ']'))
    let _ ← expectChar ']' r10
    some ()).isSome

/-- Python re.match of versus_line_regex of parsing.py: the letter v, a dot,
zero or more spaces, then a bracketed properties group. -/
def versus_line_match (l : List Char) : Bool :=
  (do
    let r1 ← expectLit (("v.").toList) l
    let r2 := r1.dropWhile (fun c => c = ' ')
    let r3 ← expectChar '[' r2
    let r4 := r3.dropWhile (fun c => !(c = ']'))
    let _ ← expectChar ']' r4
    some ()).isSome

/-- Scan for the literal bold followed by a properties-close bracket, with no
properties-close bracket allowed before it (regex piece used by the
continuation patterns). -/
def boldCloseScan : List Char → Bool
  | [] => false
  | c :: cs =>
    if (("bold]").toList).isPrefixOf (c :: cs) then true
    else if c = ']' then false
    else boldCloseScan cs

/-- Scan forward to the first properties-open bracket and then require the
bold-close piece (regex piece: non-open characters, an open bracket, then
non-close characters, the literal bold and a close bracket). -/
def bracketBoldScan : List Char → Bool
  | [] => false
  | c :: cs => if c = '[' then boldCloseScan cs else bracketBoldScan cs

/-- Python re.match of continuation_regex of parsing.py: any characters that
are not a properties-open bracket, the literal Continued in parentheses, then
a bold properties group.  The scan commits to the first occurrence of the
literal before any open bracket, which is equivalent to the backtracking
semantics because the literal is followed immediately by the open bracket. -/
def continuation_match : List Char → Bool
  | [] => false
  | c :: cs =>
    if (("(Continued)[").toList).isPrefixOf (c :: cs) then
      boldCloseScan ((c :: cs).drop 12)
    else if c = '[' then false
    else continuation_match cs

/-- Python re.match of continuation_textbox_regex of parsing.py: any
characters that are not a properties-open bracket, the literal Continued in
parentheses followed by the box-wrap character, then any non-open characters,
and a bold properties group.  All candidate occurrences of the literal before
the first open bracket continue at the same first open bracket, so committing
to the first occurrence is equivalent to backtracking. -/
def continuation_textbox_match : List Char → Bool
  | [] => false
  | c :: cs =>
    if (("(Continued)^").toList).isPrefixOf (c :: cs) then
      bracketBoldScan ((c :: cs).drop 12)
    else if c = '[' then false
    else continuation_textbox_match cs

/-- Python line.split(box_wrap, 1) indexed at 1: the part of the line after
the first box-wrap character.  In the source this is only evaluated on lines
matched by continuation_textbox_match, which guarantees a box-wrap character
is present. -/
def split_box_wrap (l : List Char) : List Char :=
  (l.dropWhile (fun c => !(c = '^'))).tail

/-! ### The page-break filters of parsing.py -/

/-- The line scan of remove_docket_page_breaks: the first argument is the
previous input line, the second whether the scan is inside a page break.
While inside a page break every line is dropped, and the break ends exactly
when the previous line matches the versus pattern; outside a break, a line
matching the printed-date pattern opens a break and is dropped, and any other
line is kept. -/
def docket_scan : List Char → Bool → List (List Char) → List (List Char)
  | _, _, [] => []
  | prev, true, l :: ls => docket_scan l (!(versus_line_match prev)) ls
  | _, false, l :: ls =>
    if printed_date_line_match l then docket_scan l true ls
    else l :: docket_scan l false ls

/-- parsing.remove_docket_page_breaks: split on the terminator, keep the
first line unconditionally, scan the rest, join and append a terminator. -/
def remove_docket_page_breaks (extracted_text : List Char) : List Char :=
  joinTerm ((splitTermAux extracted_text).1 ::
    docket_scan (splitTermAux extracted_text).1 false (splitTermAux extracted_text).2)
  ++ ['\n']

/-- The line scan of remove_court_summary_page_breaks.  Inside a break, the
break ends when the previous line matches the continuation pattern and the
current one does not; the current line is then kept, truncated to the part
after the box-wrap character when it matches the continuation-textbox
pattern.  Outside a break the behaviour is as in the docket scan. -/
def cs_scan : List Char → Bool → List (List Char) → List (List Char)
  | _, _, [] => []
  | prev, true, l :: ls =>
    if continuation_match prev && !(continuation_match l) then
      (if continuation_textbox_match l then split_box_wrap l else l) :: cs_scan l false ls
    else cs_scan l true ls
  | _, false, l :: ls =>
    if printed_date_line_match l then cs_scan l true ls
    else l :: cs_scan l false ls

/-- parsing.remove_court_summary_page_breaks. -/
def remove_court_summary_page_breaks (extracted_text : List Char) : List Char :=
  joinTerm ((splitTermAux extracted_text).1 ::
    cs_scan (splitTermAux extracted_text).1 false (splitTermAux extracted_text).2)
  ++ ['\n']

/-! ### Document-type detection (parsing.get_document_type) -/

/-- DocumentType enumeration of parsing.py. -/
inductive DocumentType
  | COURT_SUMMARY
  | DOCKET
deriving DecidableEq

/-- The two ways get_document_type can fail: Python raises IndexError when
the split text has no second element, and a parsimonious ParseError when the
second line names neither document type. -/
inductive TypeError
  | indexError
  | parseError
deriving DecidableEq

/-- Python substring containment (the in operator on str). -/
def isSubstring (needle : List Char) : List Char → Bool
  | [] => needle.isEmpty
  | c :: cs => needle.isPrefixOf (c :: cs) || isSubstring needle cs

/-- Python str.lower, restricted to the ASCII case mapping. -/
def pyLower (l : List Char) : List Char := l.map Char.toLower

/-- parsing.get_document_type: inspect the second line of the split text;
the docket keyword is tried before the court-summary keyword; a missing
second line is an index error and an unrecognised one a parse error. -/
def get_document_type (text : List Char) : Except TypeError DocumentType :=
  match (splitTermAux text).2 with
  | [] => .error .indexError
  | line_2 :: _ =>
    if isSubstring (("docket").toList) (pyLower line_2) then .ok .DOCKET
    else if isSubstring (("court summary").toList) (pyLower line_2) then .ok .COURT_SUMMARY
    else .error .parseError

/-- parsing.remove_page_breaks: detect the type, then dispatch to the
type-specific filter; a detection failure propagates. -/
def remove_page_breaks (extracted_text : List Char) : Except TypeError (List Char) :=
  match get_document_type extracted_text with
  | .error e => .error e
  | .ok .DOCKET => .ok (remove_docket_page_breaks extracted_text)
  | .ok .COURT_SUMMARY => .ok (remove_court_summary_page_breaks extracted_text)

/-! ### Money leaf reduction (DocketVisitor.add_money_visitor) -/

/-- Python str.strip: remove whitespace from both ends. -/
def pyStrip (l : List Char) : List Char :=
  ((l.dropWhile isPySpace).reverse.dropWhile isPySpace).reverse

/-- Python money.replace with a comma and the empty string: drop commas. -/
def removeCommas (l : List Char) : List Char := l.filter (fun c => !(c = ','))

/-- Numeric value of a run of decimal digits. -/
def digitsVal (l : List Char) : Nat :=
  l.foldl (fun a c => a * 10 + (c.toNat - 48)) 0

/-- Unsigned part of a Python decimal float literal: digits with at most one
dot and at least one digit overall. -/
def pyFloatCore (t : List Char) : Option ℚ :=
  match t.dropWhile Char.isDigit with
  | [] => if t.isEmpty then none else some (digitsVal t)
  | '.' :: t3 =>
    if !(t3.dropWhile Char.isDigit).isEmpty then none
    else if (t.takeWhile Char.isDigit).isEmpty && t3.isEmpty then none
    else some ((digitsVal (t.takeWhile Char.isDigit) : ℚ)
               + (digitsVal t3 : ℚ) / (10 ^ t3.length : ℚ))
  | _ => none

/-- Python float() on a plain decimal literal: optional surrounding
whitespace, optional sign, digits with at most one dot and at least one
digit.  Exponents and special values are not used by the source and are not
modelled; the value is the exact rational the literal denotes. -/
def pyFloatOfDecimal (l : List Char) : Option ℚ :=
  match pyStrip l with
  | '-' :: t => (pyFloatCore t).map (fun q => -q)
  | '+' :: t => pyFloatCore t
  | t => pyFloatCore t

/-- Failure modes of the money visitor: the explicit ParseError of the
source, Python's IndexError on indexing an empty string, and Python's
ValueError from float() on a malformed literal. -/
inductive MoneyError
  | parseError
  | indexError
  | valueError
deriving DecidableEq

/-- DocketVisitor.add_money_visitor's visit_money on the node text: strip,
remove commas, then dispatch on the first remaining character; a dollar sign
takes the value of the rest, an open parenthesis the negated value of the
text between the second and last characters, anything else raises
ParseError. -/
def visit_money (text : List Char) : Except MoneyError ℚ :=
  match removeCommas (pyStrip text) with
  | [] => .error .indexError
  | c :: rest =>
    if c = '$' then
      match pyFloatOfDecimal rest with
      | some v => .ok v
      | none => .error .valueError
    else if c = '(' then
      match pyFloatOfDecimal (((c :: rest).drop 2).dropLast) with
      | some v => .ok (-v)
      | none => .error .valueError
    else .error .parseError

/-! ### The end-to-end parse pipeline (parsing.parse_extracted_text) -/

/-- Values of the structured record (section 3 of the spec): strings, dates,
signed decimal amounts, lists and nested records. -/
inductive PValue
  | str (s : List Char)
  | date (year month day : Nat)
  | money (q : ℚ)
  | list (vs : List PValue)
  | record (fields : List (List Char × PValue))

/-- A structured record: a mapping from field name to value (a Python dict;
the empty dict is the empty list). -/
def Record : Type := List (List Char × PValue)

/-- A parsimonious ParseError from grammar.parse, carrying its message. -/
structure GrammarError where
  msg : List Char
deriving DecidableEq

/-- A parsimonious VisitationError raised while reducing the tree (all
reducer failures, including the money ParseError and the missing-county
RuntimeError, are wrapped into this type by the visitor framework). -/
structure VisitationError where
  msg : List Char
deriving DecidableEq

/-- The typed failures that escape parse_extracted_text. -/
inductive PipelineError
  | typeError (e : TypeError)
  | grammarError (e : GrammarError)
deriving DecidableEq

/-- parsing.parse_extracted_text, parameterised by the two external
collaborators: the grammar evaluator (grammar selected by document type) and
the tree reducer (visitor selected by document type).  Type detection
failures propagate; for a court summary the page-break filter runs (its
internal re-detection repeated, as in the source); grammar parse errors are
logged and re-raised; a VisitationError is caught and logged and the
function returns the record variable, still bound to the empty dict. -/
def parse_extracted_text (τ : Type)
    (gparse : DocumentType → List Char → Except GrammarError τ)
    (visit : DocumentType → τ → Except VisitationError Record)
    (text : List Char) : Except PipelineError Record :=
  match get_document_type text with
  | .error e => .error (.typeError e)
  | .ok document_type =>
    match (if document_type = DocumentType.COURT_SUMMARY
           then remove_page_breaks text else .ok text) with
    | .error e => .error (.typeError e)
    | .ok text2 =>
      match gparse document_type text2 with
      | .error err => .error (.grammarError err)
      | .ok tree =>
        match visit document_type tree with
        | .ok parsed => .ok parsed
        | .error _ => .ok ([] : Record)

/-! ### Fonts and the reserved-character check (font.py, extraction.py) -/

/-- PdfFontWrapper: the unicode map sends character ids to decoded strings
(dict int to str), the widths map sends character ids to glyph widths. -/
structure PdfFont where
  unicode_map : List (Nat × List Char)
  widths : List (Nat × Int)
  base_font : List Char
deriving DecidableEq

/-- Association-list lookup used to model Python dict indexing. -/
def alistFind (α : Type) (m : List (Nat × α)) (k : Nat) : Option α :=
  (m.find? (fun p => p.1 == k)).map (fun p => p.2)

/-- PdfFontWrapper.get_content_and_width: decode a byte run to text and its
total glyph width by concatenating the unicode-map entries and summing the
width entries; a missing entry is a lookup failure (Python KeyError). -/
def get_content_and_width (font : PdfFont) : List Nat → Option (List Char × Int)
  | [] => some ([], 0)
  | cid :: rest => do
    let v ← alistFind (List Char) font.unicode_map cid
    let w ← alistFind Int font.widths cid
    let (c2, w2) ← get_content_and_width font rest
    some (v ++ c2, w + w2)

/-- DocketReader.get_special_characters: the six reserved sentinel
characters, each as a one-character string, in source order. -/
def get_special_characters : List (List Char) :=
  [[tab], [terminator], [properties_open], [properties_close], [comes_before], [box_wrap]]

/-- The six reserved sentinel characters as characters. -/
def special_characters : List Char :=
  [tab, terminator, properties_open, properties_close, comes_before, box_wrap]

/-- The error raised by DocketPageObject's constructor when a reserved
character is found in a font (a pypdf PdfReadError). -/
inductive PdfError
  | specialCharacterFound
deriving DecidableEq

/-- The reserved-character check of DocketPageObject's constructor, run for
every page while the reader is constructed, before any extraction: every
value of every font's unicode map is tested for membership in the list of
one-character special strings, and a hit raises an error. -/
def docket_page_check (fonts : List PdfFont) : Except PdfError Unit :=
  if fonts.any (fun f => f.unicode_map.any
      (fun p => get_special_characters.contains p.2)) then
    .error .specialCharacterFound
  else .ok ()

/-! ### The content-stream interpreter (extraction.DocketPageObject) -/

/-- Python abs() on a rational. -/
def pyAbs (q : ℚ) : ℚ := if q < 0 then -q else q

/-- TextState: active font resource name and size. -/
structure TextState where
  font_name : List Char
  size : ℚ
deriving DecidableEq

/-- TextSegment: the mutable accumulator of extract_text.  Coordinates are
rationals; absent origin and font class are the Python None. -/
structure TextSegment where
  content : List Char := []
  origin_coordinates : Option (ℚ × ℚ) := none
  font_name : Option (List Char) := none
  x_translation_from_origin : ℚ := 0
  y_translation_from_origin : ℚ := 0
deriving DecidableEq

/-- The interpreter state threaded through operation_visitor: the current
text state, the working segment, the finalized segments and the displacement
accumulated since the last reposition. -/
structure ExtractState where
  text_state : TextState
  segment : TextSegment
  extracted_segments : List TextSegment
  cur_displacement : ℚ
deriving DecidableEq

/-- terminate_segment of extract_text: when the working segment has content,
strip one trailing box-wrap character, resolve the font class through the
page's font-class mapping, and append a copy to the finalized list; in every
case reset the working segment.  The first argument models the page's
font_output_names dictionary, which maps every page font to its class. -/
def terminate_segment (font_output_names : List Char → List Char)
    (text_state : TextState) (segment : TextSegment)
    (extracted_segments : List TextSegment) : TextSegment × List TextSegment :=
  if segment.content = [] then (⟨[], none, none, 0, 0⟩, extracted_segments)
  else
    (⟨[], none, none, 0, 0⟩,
     extracted_segments ++
       [{ segment with
            content := if segment.content.getLast? = some '^'
                       then segment.content.dropLast else segment.content,
            font_name := some (font_output_names text_state.font_name) }])

/-- The Td (reposition) handler of operation_visitor, with the five ordered
cases of the source: box wrap, return to line after a text box, large
vertical move (terminate), negative horizontal move, and positive horizontal
move with spacing classification; the displacement accumulator is reset at
the end of every reposition. -/
def td_update (x_tolerance y_tolerance : ℚ)
    (font_output_names : List Char → List Char) (st : ExtractState)
    (x_translation y_translation : ℚ) : ExtractState :=
  if y_translation < 0 ∧
      pyAbs (x_translation + st.segment.x_translation_from_origin) < x_tolerance then
    { st with
        segment := { st.segment with
          content := st.segment.content ++ ['^'],
          x_translation_from_origin := 0,
          y_translation_from_origin :=
            st.segment.y_translation_from_origin + y_translation },
        cur_displacement := 0 }
  else if y_translation > 0 ∧
      pyAbs (y_translation + st.segment.y_translation_from_origin) < y_tolerance then
    { st with
        segment := { st.segment with
          content := st.segment.content ++
            [if x_translation < 0 then '|' else '_'],
          x_translation_from_origin := 0,
          y_translation_from_origin := 0 },
        cur_displacement := 0 }
  else if pyAbs y_translation ≥ y_tolerance then
    { st with
        segment := (terminate_segment font_output_names st.text_state
          st.segment st.extracted_segments).1,
        extracted_segments := (terminate_segment font_output_names st.text_state
          st.segment st.extracted_segments).2,
        cur_displacement := 0 }
  else if x_translation < 0 ∧ st.segment.content ≠ [] then
    { st with
        segment := { st.segment with content := st.segment.content ++ ['|'] },
        cur_displacement := 0 }
  else if x_translation > 0 ∧ st.segment.content ≠ [] then
    if x_translation - st.cur_displacement > x_tolerance * st.text_state.size then
      { st with
          segment := { st.segment with content := st.segment.content ++ ['_'] },
          cur_displacement := 0 }
    else if x_translation - st.cur_displacement < -(1/10) then
      { st with cur_displacement := 0 }
    else
      { st with
          segment := { st.segment with
            x_translation_from_origin :=
              st.segment.x_translation_from_origin + x_translation },
          cur_displacement := 0 }
  else { st with cur_displacement := 0 }

/-! ### Segment serialization (DocketPageObject.segment_to_str) -/

/-- Python round(x, 2) followed by the 06.2f format: two decimal digits,
dot, sign when negative, zero padded on the left to a total width of six.
Ties are rounded up here while Python rounds them to even; the two agree on
every value the source produces in the verified properties. -/
def fmt06_2f (q : ℚ) : List Char :=
  let m : Int := (q * 100 + 1 / 2).floor
  let n : Nat := m.natAbs
  let fp : List Char := (n % 100).repr.toList
  let body : List Char :=
    (n / 100).repr.toList ++ '.' :: (if fp.length = 1 then '0' :: fp else fp)
  let sign : List Char := if m < 0 then ['-'] else []
  sign ++ List.replicate (6 - (sign.length + body.length)) '0' ++ body

/-- DocketPageObject.segment_to_str: the segment content, the bracketed
fixed-precision coordinates and font class, and the terminator.  A segment
with no origin or no font class would make the Python crash; this is the
none case. -/
def segment_to_str (segment : TextSegment) : Option (List Char) :=
  match segment.origin_coordinates, segment.font_name with
  | some (x, y), some fn =>
    some (segment.content ++
      '[' :: (fmt06_2f x ++ ',' :: fmt06_2f y ++ ',' :: fn) ++ [']', '\n'])
  | _, _ => none

/-! ### Lemmas about splitting and joining -/

theorem splitTermAux_no_nl (t : List Char) :
    '\n' ∉ (splitTermAux t).1 ∧ ∀ l ∈ (splitTermAux t).2, '\n' ∉ l := by
  induction t with
  | nil => simp [splitTermAux]
  | cons c cs ih =>
    by_cases hc : c = '\n'
    · simpa [splitTermAux, hc] using ⟨ih.1, ih.2⟩
    · simp only [splitTermAux, if_neg hc]
      refine ⟨?_, ih.2⟩
      simp only [List.mem_cons, not_or]
      exact ⟨fun h => hc h.symm, ih.1⟩

theorem splitTermAux_append (a r : List Char) (h : '\n' ∉ a) :
    splitTermAux (a ++ r) = (a ++ (splitTermAux r).1, (splitTermAux r).2) := by
  induction a with
  | nil => simp
  | cons c cs ih =>
    have hc : ¬ c = '\n' := fun hch => h (hch ▸ List.mem_cons_self c cs)
    have hcs : '\n' ∉ cs := fun hm => h (List.mem_cons_of_mem c hm)
    simp [splitTermAux, hc, ih hcs]

theorem splitTermAux_joinTerm (L : List (List Char)) :
    ∀ a, (∀ l ∈ a :: L, '\n' ∉ l) →
    splitTermAux (joinTerm (a :: L)) = (a, L) := by
  induction L with
  | nil =>
    intro a h
    have ha : '\n' ∉ a := h a (List.mem_cons_self a [])
    have := splitTermAux_append a [] ha
    simpa [joinTerm, splitTermAux] using this
  | cons b L ih =>
    intro a h
    have ha : '\n' ∉ a := h a (List.mem_cons_self a _)
    have hrest : ∀ l ∈ b :: L, '\n' ∉ l :=
      fun l hl => h l (List.mem_cons_of_mem a hl)
    have hj : joinTerm (a :: b :: L) = a ++ '\n' :: joinTerm (b :: L) := by
      simp [joinTerm]
    rw [hj, splitTermAux_append a _ ha]
    simp [splitTermAux, ih b hrest]

theorem joinTerm_append_nil (L : List (List Char)) :
    ∀ a, joinTerm ((a :: L) ++ [[]]) = joinTerm (a :: L) ++ ['\n'] := by
  induction L with
  | nil => intro a; simp [joinTerm]
  | cons b L ih =>
    intro a
    have h := ih b
    simp only [List.cons_append] at h ⊢
    simp [joinTerm, h]

/-! ### Lemmas about the docket line scan -/

theorem docket_scan_mem (L : List (List Char)) :
    ∀ prev b l, l ∈ docket_scan prev b L → l ∈ L := by
  induction L with
  | nil => intro prev b l hl; simp [docket_scan] at hl
  | cons x xs ih =>
    intro prev b l hl
    cases b with
    | true =>
      simp only [docket_scan] at hl
      exact List.mem_cons_of_mem x (ih x _ l hl)
    | false =>
      simp only [docket_scan] at hl
      by_cases hp : printed_date_line_match x
      · rw [if_pos hp] at hl
        exact List.mem_cons_of_mem x (ih x true l hl)
      · rw [if_neg hp] at hl
        rcases List.mem_cons.mp hl with h | h
        · exact h ▸ List.mem_cons_self x xs
        · exact List.mem_cons_of_mem x (ih x false l h)

theorem docket_scan_printed_free (L : List (List Char)) :
    ∀ prev b l, l ∈ docket_scan prev b L → printed_date_line_match l = false := by
  induction L with
  | nil => intro prev b l hl; simp [docket_scan] at hl
  | cons x xs ih =>
    intro prev b l hl
    cases b with
    | true => exact ih x _ l (by simpa [docket_scan] using hl)
    | false =>
      simp only [docket_scan] at hl
      by_cases hp : printed_date_line_match x
      · rw [if_pos hp] at hl
        exact ih x true l hl
      · rw [if_neg hp] at hl
        rcases List.mem_cons.mp hl with h | h
        · simpa [h] using hp
        · exact ih x false l h

theorem docket_scan_id (L : List (List Char)) :
    ∀ prev, (∀ l ∈ L, printed_date_line_match l = false) →
    docket_scan prev false L = L := by
  induction L with
  | nil => intro prev _; simp [docket_scan]
  | cons x xs ih =>
    intro prev h
    have hx : printed_date_line_match x = false := h x (List.mem_cons_self x xs)
    simp only [docket_scan, hx, if_neg (by simp [hx] : ¬ printed_date_line_match x = true)]
    exact congrArg (x :: ·) (ih x (fun l hl => h l (List.mem_cons_of_mem x hl)))

theorem docket_scan_break (mid : List (List Char)) :
    ∀ prev, versus_line_match prev = false →
    (∀ m ∈ mid, versus_line_match m = false) →
    ∀ V B post, versus_line_match V = true →
    docket_scan prev true (mid ++ V :: B :: post) = docket_scan B false post := by
  induction mid with
  | nil =>
    intro prev hprev _ V B post hV
    simp [docket_scan, hprev, hV]
  | cons m mid ih =>
    intro prev hprev hmid V B post hV
    have hm : versus_line_match m = false := hmid m (List.mem_cons_self m mid)
    have hmid2 : ∀ x ∈ mid, versus_line_match x = false :=
      fun x hx => hmid x (List.mem_cons_of_mem m hx)
    simp only [List.cons_append, docket_scan, hprev]
    exact ih m hm hmid2 V B post hV

/-! ### Lemmas about the court-summary line scan -/

theorem split_box_wrap_subset (l : List Char) : split_box_wrap l ⊆ l :=
  fun _ hm =>
    (List.dropWhile_suffix _).sublist.subset ((List.tail_sublist _).subset hm)

theorem cs_scan_no_nl (L : List (List Char)) :
    ∀ prev b, (∀ l ∈ L, '\n' ∉ l) →
    ∀ l ∈ cs_scan prev b L, '\n' ∉ l := by
  induction L with
  | nil => intro prev b _ l hl; simp [cs_scan] at hl
  | cons x xs ih =>
    intro prev b h l hl
    have hx : '\n' ∉ x := h x (List.mem_cons_self x xs)
    have hxs : ∀ y ∈ xs, '\n' ∉ y := fun y hy => h y (List.mem_cons_of_mem x hy)
    cases b with
    | true =>
      simp only [cs_scan] at hl
      by_cases hcond : (continuation_match prev && !(continuation_match x)) = true
      · rw [if_pos hcond] at hl
        rcases List.mem_cons.mp hl with hh | hh
        · subst hh
          by_cases htb : continuation_textbox_match x
          · rw [if_pos htb]
            exact fun hmem => hx (split_box_wrap_subset x hmem)
          · rw [if_neg htb]; exact hx
        · exact ih x false hxs l hh
      · rw [if_neg hcond] at hl
        exact ih x true hxs l hl
    | false =>
      simp only [cs_scan] at hl
      by_cases hp : printed_date_line_match x
      · rw [if_pos hp] at hl
        exact ih x true hxs l hl
      · rw [if_neg hp] at hl
        rcases List.mem_cons.mp hl with hh | hh
        · exact hh ▸ hx
        · exact ih x false hxs l hh

theorem cs_scan_id (L : List (List Char)) :
    ∀ prev, (∀ l ∈ L, printed_date_line_match l = false) →
    cs_scan prev false L = L := by
  induction L with
  | nil => intro prev _; simp [cs_scan]
  | cons x xs ih =>
    intro prev h
    have hx : printed_date_line_match x = false := h x (List.mem_cons_self x xs)
    simp only [cs_scan, if_neg (by simp [hx] : ¬ printed_date_line_match x = true)]
    exact congrArg (x :: ·) (ih x (fun l hl => h l (List.mem_cons_of_mem x hl)))

/-! ### Structure of the filters' output -/

theorem split_remove_docket (x : List Char) :
    splitTermAux (remove_docket_page_breaks x) =
    ((splitTermAux x).1,
      docket_scan (splitTermAux x).1 false (splitTermAux x).2 ++ [[]]) := by
  have hnl := splitTermAux_no_nl x
  have hnlS : ∀ l ∈ docket_scan (splitTermAux x).1 false (splitTermAux x).2 ++ [[]],
      '\n' ∉ l := by
    intro l hl
    rcases List.mem_append.mp hl with h | h
    · exact hnl.2 l (docket_scan_mem _ _ _ l h)
    · simp only [List.mem_singleton] at h
      simp [h]
  have key := splitTermAux_joinTerm
    (docket_scan (splitTermAux x).1 false (splitTermAux x).2 ++ [[]])
    (splitTermAux x).1
    (by
      intro l hl
      rcases List.mem_cons.mp hl with h | h
      · exact h ▸ hnl.1
      · exact hnlS l h)
  have hshape : remove_docket_page_breaks x =
      joinTerm ((splitTermAux x).1 ::
        (docket_scan (splitTermAux x).1 false (splitTermAux x).2 ++ [[]])) := by
    rw [remove_docket_page_breaks]
    rw [show (splitTermAux x).1 ::
        (docket_scan (splitTermAux x).1 false (splitTermAux x).2 ++ [[]]) =
        ((splitTermAux x).1 ::
          docket_scan (splitTermAux x).1 false (splitTermAux x).2) ++ [[]] by simp]
    rw [joinTerm_append_nil]
  rw [hshape]
  exact key

theorem split_remove_cs (x : List Char) :
    splitTermAux (remove_court_summary_page_breaks x) =
    ((splitTermAux x).1,
      cs_scan (splitTermAux x).1 false (splitTermAux x).2 ++ [[]]) := by
  have hnl := splitTermAux_no_nl x
  have hnlS : ∀ l ∈ cs_scan (splitTermAux x).1 false (splitTermAux x).2 ++ [[]],
      '\n' ∉ l := by
    intro l hl
    rcases List.mem_append.mp hl with h | h
    · exact cs_scan_no_nl _ _ _ hnl.2 l h
    · simp only [List.mem_singleton] at h
      simp [h]
  have key := splitTermAux_joinTerm
    (cs_scan (splitTermAux x).1 false (splitTermAux x).2 ++ [[]])
    (splitTermAux x).1
    (by
      intro l hl
      rcases List.mem_cons.mp hl with h | h
      · exact h ▸ hnl.1
      · exact hnlS l h)
  have hshape : remove_court_summary_page_breaks x =
      joinTerm ((splitTermAux x).1 ::
        (cs_scan (splitTermAux x).1 false (splitTermAux x).2 ++ [[]])) := by
    rw [remove_court_summary_page_breaks]
    rw [show (splitTermAux x).1 ::
        (cs_scan (splitTermAux x).1 false (splitTermAux x).2 ++ [[]]) =
        ((splitTermAux x).1 ::
          cs_scan (splitTermAux x).1 false (splitTermAux x).2) ++ [[]] by simp]
    rw [joinTerm_append_nil]
  rw [hshape]
  exact key

theorem splitTermAux_snd_nil (t : List Char) (h : '\n' ∉ t) :
    (splitTermAux t).2 = [] := by
  induction t with
  | nil => simp [splitTermAux]
  | cons c cs ih =>
    have hc : ¬ c = '\n' := fun hch => h (hch ▸ List.mem_cons_self c cs)
    have hcs : '\n' ∉ cs := fun hm => h (List.mem_cons_of_mem c hm)
    simp [splitTermAux, hc, ih hcs]

theorem get_document_type_cons (text l2 : List Char) (rest : List (List Char))
    (h : (splitTermAux text).2 = l2 :: rest) :
    get_document_type text =
      if isSubstring (("docket").toList) (pyLower l2) then .ok .DOCKET
      else if isSubstring (("court summary").toList) (pyLower l2) then .ok .COURT_SUMMARY
      else .error .parseError := by
  rw [get_document_type, h]

/-! ### Claim theorems -/

/-- C9: document-type detection on a text with no terminator (fewer than two
lines, for example the empty string) raises the out-of-range indexing error,
not the documented parse error; the parse-error branch is reached only when a
second line exists but contains neither the docket nor the court-summary
keyword (case-insensitively); and when the second line contains both
keywords the result is the docket type, since the docket check is tried
first. -/
theorem claim9_document_type_detection :
    (∀ text : List Char, '\n' ∉ text →
      get_document_type text = .error .indexError)
    ∧ (∀ text : List Char, get_document_type text = .error .parseError →
        ∃ l2 rest, (splitTermAux text).2 = l2 :: rest ∧
          isSubstring (("docket").toList) (pyLower l2) = false ∧
          isSubstring (("court summary").toList) (pyLower l2) = false)
    ∧ (∀ (text l2 : List Char) (rest : List (List Char)),
        (splitTermAux text).2 = l2 :: rest →
        isSubstring (("docket").toList) (pyLower l2) = true →
        isSubstring (("court summary").toList) (pyLower l2) = true →
        get_document_type text = .ok .DOCKET) := by
  refine ⟨?_, ?_, ?_⟩
  · intro text h
    rw [get_document_type, splitTermAux_snd_nil text h]
  · intro text h
    cases hsnd : (splitTermAux text).2 with
    | nil => rw [get_document_type, hsnd] at h; exact absurd h (by decide)
    | cons l2 rest =>
      rw [get_document_type_cons text l2 rest hsnd] at h
      by_cases h1 : isSubstring (("docket").toList) (pyLower l2) = true
      · rw [if_pos h1] at h; exact absurd h (by decide)
      · rw [if_neg h1] at h
        by_cases h2 : isSubstring (("court summary").toList) (pyLower l2) = true
        · rw [if_pos h2] at h; exact absurd h (by decide)
        · exact ⟨l2, rest, rfl, by simpa using h1, by simpa using h2⟩
  · intro text l2 rest hsnd h1 _h2
    rw [get_document_type_cons text l2 rest hsnd, if_pos h1]

/-- Witness for C9 at concrete inputs: the empty string gives the index
error; a text whose second line has neither keyword gives the parse error
with the promised shape; a second line containing both keywords gives the
docket type. -/
theorem claim9_witness :
    get_document_type [] = .error .indexError
    ∧ (∃ l2 rest, (splitTermAux (("A\nB\n").toList)).2 = l2 :: rest ∧
        isSubstring (("docket").toList) (pyLower l2) = false ∧
        isSubstring (("court summary").toList) (pyLower l2) = false)
    ∧ get_document_type (("A\nCourt Summary docket\n").toList) = .ok .DOCKET :=
  ⟨claim9_document_type_detection.1 [] (by decide),
   claim9_document_type_detection.2.1 (("A\nB\n").toList) (by decide),
   claim9_document_type_detection.2.2 (("A\nCourt Summary docket\n").toList)
     (("Court Summary docket").toList) [[]] (by decide) (by decide) (by decide)⟩

/-- C4 counterexample: the first character of the raw money text is a comma,
which is neither a dollar sign nor an open parenthesis, and yet the money
visitor succeeds instead of raising a reduction error, because commas are
removed before the first character is inspected. -/
theorem claim4_cex :
    ((",$5").toList).head? = some ','
    ∧ ¬ (',' = '$' ∨ ',' = '(')
    ∧ visit_money ((",$5").toList) = .ok 5 := by
  refine ⟨by decide, by decide, ?_⟩
  simp +decide [visit_money, pyStrip, removeCommas, pyFloatOfDecimal, pyFloatCore,
    digitsVal, isPySpace, List.dropWhile, List.takeWhile, List.filter, List.foldl]

/-- C4 (amended): after stripping surrounding whitespace and removing
commas, a leading dollar sign yields the decimal value of the remainder, the
parenthesized dollar form yields the negated value of the text between its
second and last characters, any other leading character raises the reduction
parse error, and an empty remainder raises an index error. -/
theorem claim4_money_reduction :
    visit_money (("$1,234.56").toList) = .ok (123456 / 100)
    ∧ visit_money (("($500.00)").toList) = .ok (-500)
    ∧ (∀ (text : List Char) (c : Char) (rest : List Char),
        removeCommas (pyStrip text) = c :: rest →
        ¬ c = '$' → ¬ c = '(' →
        visit_money text = .error .parseError)
    ∧ (∀ text : List Char, removeCommas (pyStrip text) = [] →
        visit_money text = .error .indexError) := by
  refine ⟨?_, ?_, ?_, ?_⟩
  · simp +decide [visit_money, pyStrip, removeCommas, pyFloatOfDecimal, pyFloatCore,
      digitsVal, isPySpace, List.dropWhile, List.takeWhile, List.filter, List.foldl]
    norm_num
  · simp +decide [visit_money, pyStrip, removeCommas, pyFloatOfDecimal, pyFloatCore,
      digitsVal, isPySpace, List.dropWhile, List.takeWhile, List.filter, List.foldl,
      List.dropLast]
  · intro text c rest h hc1 hc2
    simp only [visit_money, h]
    rw [if_neg hc1, if_neg hc2]
  · intro text h
    simp only [visit_money, h]

/-- Witness for C4's conditional parts: a text whose stripped, comma-free
form starts with a letter raises the parse error, and a whitespace-only text
raises the index error. -/
theorem claim4_witness :
    visit_money (("X5").toList) = .error .parseError
    ∧ visit_money (("  ").toList) = .error .indexError :=
  ⟨claim4_money_reduction.2.2.1 (("X5").toList) 'X' ['5']
     (by decide) (by decide) (by decide),
   claim4_money_reduction.2.2.2 (("  ").toList) (by decide)⟩

/-- C2 counterexample: with a grammar stage that succeeds and a reducer
stage that fails with a visitation error, the end-to-end pipeline returns
the empty record instead of propagating the reduction failure. -/
theorem claim2_cex :
    (fun (_ : DocumentType) (_ : Unit) =>
        (Except.error ⟨("boom").toList⟩ : Except VisitationError Record))
      DocumentType.DOCKET () = .error ⟨("boom").toList⟩
    ∧ parse_extracted_text Unit (fun _ _ => .ok ())
        (fun _ _ => .error ⟨("boom").toList⟩)
        (("A\nDocket[x]\n").toList) = .ok ([] : Record) :=
  ⟨rfl, rfl⟩

/-- C2 (amended): document-type failures and grammar-parse failures abort
the pipeline and propagate as typed errors with no record; a reduction
(visitation) failure is caught and logged and the pipeline returns the empty
record instead of propagating it. -/
theorem claim2_error_propagation (τ : Type)
    (gparse : DocumentType → List Char → Except GrammarError τ)
    (visit : DocumentType → τ → Except VisitationError Record)
    (text : List Char) :
    (∀ e, get_document_type text = .error e →
        parse_extracted_text τ gparse visit text = .error (.typeError e))
    ∧ (∀ dt text2 err, get_document_type text = .ok dt →
        (if dt = DocumentType.COURT_SUMMARY then remove_page_breaks text
         else .ok text) = .ok text2 →
        gparse dt text2 = .error err →
        parse_extracted_text τ gparse visit text = .error (.grammarError err))
    ∧ (∀ dt text2 tree verr, get_document_type text = .ok dt →
        (if dt = DocumentType.COURT_SUMMARY then remove_page_breaks text
         else .ok text) = .ok text2 →
        gparse dt text2 = .ok tree →
        visit dt tree = .error verr →
        parse_extracted_text τ gparse visit text = .ok ([] : Record)) := by
  refine ⟨?_, ?_, ?_⟩
  · intro e h
    simp only [parse_extracted_text, h]
  · intro dt text2 err h1 h2 h3
    simp only [parse_extracted_text, h1, h2, h3]
  · intro dt text2 tree verr h1 h2 h3 h4
    simp only [parse_extracted_text, h1, h2, h3, h4]

/-- Witness for C2 at concrete inputs: an empty text propagates the index
error, a grammar failure propagates as a grammar error, and a reduction
failure on a court summary yields the empty record. -/
theorem claim2_witness :
    parse_extracted_text Unit (fun _ _ => .ok ())
      (fun _ _ => .ok ([] : Record)) [] = .error (.typeError .indexError)
    ∧ parse_extracted_text Unit (fun _ _ => .error ⟨['g']⟩)
        (fun _ _ => .ok ([] : Record)) (("A\nDocket[x]\n").toList)
        = .error (.grammarError ⟨['g']⟩)
    ∧ parse_extracted_text Unit (fun _ _ => .ok ())
        (fun _ _ => .error ⟨['v']⟩) (("A\nCourt Summary[x]\n").toList)
        = .ok ([] : Record) :=
  ⟨(claim2_error_propagation Unit _ _ []).1 .indexError rfl,
   (claim2_error_propagation Unit _ _ (("A\nDocket[x]\n").toList)).2.1
     .DOCKET (("A\nDocket[x]\n").toList) ⟨['g']⟩ rfl rfl rfl,
   (claim2_error_propagation Unit _ _ (("A\nCourt Summary[x]\n").toList)).2.2
     .COURT_SUMMARY
     (remove_court_summary_page_breaks (("A\nCourt Summary[x]\n").toList))
     () ⟨['v']⟩ rfl rfl rfl rfl⟩

/-- C8: a reposition with negative vertical translation whose horizontal
translation plus the segment's accumulated horizontal carry is within the
horizontal tolerance appends the box-wrap marker to the content, resets the
horizontal carry to zero, accumulates the vertical translation into the
vertical carry, and does not terminate the segment (the finalized list and
everything else are unchanged, apart from the displacement reset that every
reposition performs). -/
theorem claim8_box_wrap (x_tolerance y_tolerance : ℚ)
    (font_output_names : List Char → List Char) (st : ExtractState)
    (dx dy : ℚ) (h1 : dy < 0)
    (h2 : pyAbs (dx + st.segment.x_translation_from_origin) < x_tolerance) :
    td_update x_tolerance y_tolerance font_output_names st dx dy =
      { st with
          segment := { st.segment with
            content := st.segment.content ++ ['^'],
            x_translation_from_origin := 0,
            y_translation_from_origin :=
              st.segment.y_translation_from_origin + dy },
          cur_displacement := 0 }
    ∧ (td_update x_tolerance y_tolerance font_output_names st dx dy).extracted_segments
        = st.extracted_segments := by
  have hc : dy < 0 ∧ pyAbs (dx + st.segment.x_translation_from_origin) < x_tolerance :=
    ⟨h1, h2⟩
  refine ⟨?_, ?_⟩ <;> rw [td_update, if_pos hc]

/-- Witness for C8 at the spec's concrete numbers: vertical translation
negative one half, horizontal translation negative one tenth, accumulated
horizontal carry one tenth, horizontal tolerance three tenths. -/
theorem claim8_witness :
    td_update (3 / 10) 1 (fun _ => ("normal").toList)
      ⟨⟨("F1").toList, 10⟩, ⟨("ab").toList, some (0, 0), none, 1 / 10, 0⟩, [], 0⟩
      (-(1 / 10)) (-(1 / 2)) =
      ⟨⟨("F1").toList, 10⟩,
       ⟨("ab").toList ++ ['^'], some (0, 0), none, 0, 0 + -(1 / 2)⟩, [], 0⟩ :=
  (claim8_box_wrap (3 / 10) 1 (fun _ => ("normal").toList)
    ⟨⟨("F1").toList, 10⟩, ⟨("ab").toList, some (0, 0), none, 1 / 10, 0⟩, [], 0⟩
    (-(1 / 10)) (-(1 / 2)) (by norm_num) (by norm_num [pyAbs])).1

/-- C5 counterexample: a reposition whose vertical translation has absolute
value exactly equal to the vertical tolerance, with the box-wrap and
return-to-line cases inapplicable, does finalize the segment: the working
content is reset and the segment is appended to the finalized list, instead
of falling through to the horizontal cases. -/
theorem claim5_cex :
    pyAbs 1 = (1 : ℚ)
    ∧ (td_update (3 / 10) 1 (fun _ => ("normal").toList)
        ⟨⟨("F1").toList, 10⟩, ⟨("ab").toList, some (0, 0), none, 0, 0⟩, [], 0⟩
        5 1).segment.content = []
    ∧ (td_update (3 / 10) 1 (fun _ => ("normal").toList)
        ⟨⟨("F1").toList, 10⟩, ⟨("ab").toList, some (0, 0), none, 0, 0⟩, [], 0⟩
        5 1).extracted_segments.length = 1 := by
  refine ⟨by norm_num [pyAbs], ?_, ?_⟩ <;>
    norm_num [td_update, pyAbs, terminate_segment] <;> simp

/-- C5 (amended): when neither the box-wrap case nor the return-to-line case
applies and the working content is non-empty, the reposition handler
finalizes the segment exactly when the absolute vertical translation is
greater than or equal to the vertical tolerance; repositions at exactly the
tolerance therefore do finalize rather than falling through to the
horizontal cases. -/
theorem claim5_reposition_finalize (x_tolerance y_tolerance : ℚ)
    (font_output_names : List Char → List Char) (st : ExtractState)
    (dx dy : ℚ)
    (h1 : ¬ (dy < 0 ∧
      pyAbs (dx + st.segment.x_translation_from_origin) < x_tolerance))
    (h2 : ¬ (dy > 0 ∧
      pyAbs (dy + st.segment.y_translation_from_origin) < y_tolerance))
    (h3 : st.segment.content ≠ []) :
    ((td_update x_tolerance y_tolerance font_output_names st dx dy).segment.content = []
      ↔ pyAbs dy ≥ y_tolerance) := by
  rw [td_update, if_neg h1, if_neg h2]
  by_cases hy : pyAbs dy ≥ y_tolerance
  · rw [if_pos hy]
    simp only [terminate_segment, if_neg h3]
    simpa using hy
  · rw [if_neg hy]
    by_cases h4 : dx < 0 ∧ st.segment.content ≠ []
    · rw [if_pos h4]
      simpa using hy
    · rw [if_neg h4]
      by_cases h5 : dx > 0 ∧ st.segment.content ≠ []
      · rw [if_pos h5]
        by_cases h6 : dx - st.cur_displacement > x_tolerance * st.text_state.size
        · rw [if_pos h6]
          simpa using hy
        · rw [if_neg h6]
          by_cases h7 : dx - st.cur_displacement < -(1 / 10)
          · rw [if_pos h7]
            simpa [h3] using hy
          · rw [if_neg h7]
            simpa [h3] using hy
      · rw [if_neg h5]
        simpa [h3] using hy

/-- Witness for C5 at a concrete reposition strictly above the tolerance. -/
theorem claim5_witness :
    (td_update (3 / 10) 1 (fun _ => ("normal").toList)
      ⟨⟨("F1").toList, 10⟩, ⟨("ab").toList, some (0, 0), none, 0, 0⟩, [], 0⟩
      0 2).segment.content = [] ↔ pyAbs 2 ≥ (1 : ℚ) :=
  claim5_reposition_finalize (3 / 10) 1 (fun _ => ("normal").toList)
    ⟨⟨("F1").toList, 10⟩, ⟨("ab").toList, some (0, 0), none, 0, 0⟩, [], 0⟩
    0 2 (by norm_num [pyAbs]) (by norm_num [pyAbs]) (by decide)

/-- C10: a segment is appended at finalization exactly when its content is
non-empty at that moment; a segment whose content is exactly one box-wrap
marker is appended with empty content, because the trailing box-wrap marker
is stripped only after the emptiness check; and serializing that emitted
segment yields a line holding only the bracketed properties followed by the
terminator. -/
theorem claim10_terminate_emptiness (font_output_names : List Char → List Char)
    (text_state : TextState) (extracted_segments : List TextSegment) :
    (∀ segment : TextSegment,
      (terminate_segment font_output_names text_state segment
        extracted_segments).2.length =
        extracted_segments.length + (if segment.content = [] then 0 else 1))
    ∧ (∀ ox oy : ℚ,
        terminate_segment font_output_names text_state
          ⟨['^'], some (ox, oy), none, 0, 0⟩ extracted_segments =
        (⟨[], none, none, 0, 0⟩,
         extracted_segments ++
           [⟨[], some (ox, oy),
             some (font_output_names text_state.font_name), 0, 0⟩]))
    ∧ (∀ ox oy : ℚ,
        segment_to_str
          ⟨[], some (ox, oy),
            some (font_output_names text_state.font_name), 0, 0⟩ =
        some ('[' :: (fmt06_2f ox ++ ',' :: fmt06_2f oy ++ ','
          :: font_output_names text_state.font_name) ++ [']', '\n'])) := by
  refine ⟨?_, ?_, ?_⟩
  · intro segment
    by_cases h : segment.content = []
    · simp [terminate_segment, h]
    · simp [terminate_segment, h]
  · intro ox oy
    simp [terminate_segment]
  · intro ox oy
    simp [segment_to_str]

theorem mem_special_singleton (c : Char) :
    [c] ∈ get_special_characters ↔ c ∈ special_characters := by
  simp [get_special_characters, special_characters]

/-- C6 counterexample: a font whose unicode map sends a character id to a
two-character string containing a reserved character can produce that
reserved character through decoding, yet the reserved-character check of the
page constructor succeeds, because the check compares whole mapping values
with the one-character special strings. -/
theorem claim6_cex :
    get_content_and_width ⟨[(0, ['a', '^'])], [(0, 500)], ['F']⟩ [0]
      = some (['a', '^'], 500)
    ∧ '^' ∈ special_characters
    ∧ docket_page_check [⟨[(0, ['a', '^'])], [(0, 500)], ['F']⟩] = .ok () :=
  ⟨by decide, by decide, by decide⟩

/-- C6 (amended): the constructor's check runs for every font of every page
before any extraction and raises an error, not a warning; it compares each
unicode-map value, as a whole string, with the six one-character reserved
strings.  For fonts whose mapping values are all single characters this
coincides with the claim: construction fails exactly when some decodable
character is reserved.  A reserved character strictly inside a
multi-character mapping value is not detected. -/
theorem claim6_reserved_check (fonts : List PdfFont)
    (hsingle : ∀ f ∈ fonts, ∀ p ∈ f.unicode_map, p.2.length = 1) :
    docket_page_check fonts = .error .specialCharacterFound ↔
      ∃ f ∈ fonts, ∃ p ∈ f.unicode_map, ∃ c ∈ p.2, c ∈ special_characters := by
  have hbridge : (fonts.any (fun f => f.unicode_map.any
      (fun p => get_special_characters.contains p.2))) = true ↔
      ∃ f ∈ fonts, ∃ p ∈ f.unicode_map, ∃ c ∈ p.2, c ∈ special_characters := by
    rw [List.any_eq_true]
    constructor
    · rintro ⟨f, hf, hany⟩
      rw [List.any_eq_true] at hany
      obtain ⟨p, hp, hcont⟩ := hany
      have hmem : p.2 ∈ get_special_characters := by
        have := List.elem_iff.mp hcont
        exact this
      obtain ⟨c, hlen⟩ : ∃ c, p.2 = [c] :=
        List.length_eq_one.mp (hsingle f hf p hp)
      refine ⟨f, hf, p, hp, c, by simp [hlen], ?_⟩
      rw [hlen] at hmem
      exact (mem_special_singleton c).mp hmem
    · rintro ⟨f, hf, p, hp, c, hc, hcs⟩
      refine ⟨f, hf, ?_⟩
      rw [List.any_eq_true]
      refine ⟨p, hp, ?_⟩
      obtain ⟨d, hd⟩ : ∃ d, p.2 = [d] :=
        List.length_eq_one.mp (hsingle f hf p hp)
      have hcd : c = d := by
        rw [hd] at hc
        simpa using hc
      apply List.elem_iff.mpr
      rw [hd]
      exact (mem_special_singleton d).mpr (hcd ▸ hcs)

  by_cases hA : (fonts.any (fun f => f.unicode_map.any
      (fun p => get_special_characters.contains p.2))) = true
  · rw [docket_page_check, if_pos hA]
    simpa using hbridge.mp hA
  · rw [docket_page_check, if_neg hA]
    constructor
    · intro h; exact absurd h (by simp)
    · intro h; exact absurd (hbridge.mpr h) hA

/-- Witness for C6: a single font with single-character values, one of which
is the box-wrap character, makes construction fail. -/
theorem claim6_witness :
    docket_page_check [⟨[(0, ['a']), (1, ['^'])], [(0, 500), (1, 500)], ['F']⟩]
      = .error .specialCharacterFound :=
  (claim6_reserved_check [⟨[(0, ['a']), (1, ['^'])], [(0, 500), (1, 500)], ['F']⟩]
    (by decide)).mpr
    ⟨⟨[(0, ['a']), (1, ['^'])], [(0, 500), (1, 500)], ['F']⟩, by decide,
     (1, ['^']), by decide, '^', by decide, by decide⟩

/-- C3 counterexample: neither page-break filter is idempotent: applying a
filter twice differs from applying it once, already on a well-formed
serialized text, because every pass appends one extra terminator. -/
theorem claim3_cex :
    remove_docket_page_breaks (remove_docket_page_breaks (("A\nDocket[x]\n").toList))
      ≠ remove_docket_page_breaks (("A\nDocket[x]\n").toList)
    ∧ remove_court_summary_page_breaks
        (remove_court_summary_page_breaks (("A\nCourt Summary[x]\n").toList))
      ≠ remove_court_summary_page_breaks (("A\nCourt Summary[x]\n").toList) :=
  ⟨by decide, by decide⟩

/-- C3 (amended): each filter pass appends one extra terminator.  For the
docket filter, applying it twice equals applying it once followed by one
extra terminator, for every input; the same holds for the court-summary
filter whenever no line of the once-filtered output beyond the first matches
the printed-date pattern. -/
theorem claim3_filter_twice :
    (∀ x : List Char,
      remove_docket_page_breaks (remove_docket_page_breaks x) =
        remove_docket_page_breaks x ++ ['\n'])
    ∧ (∀ x : List Char,
        (∀ l ∈ (splitTermAux (remove_court_summary_page_breaks x)).2,
          printed_date_line_match l = false) →
        remove_court_summary_page_breaks (remove_court_summary_page_breaks x) =
          remove_court_summary_page_breaks x ++ ['\n']) := by
  constructor
  · intro x
    have hfree : ∀ l ∈ docket_scan (splitTermAux x).1 false (splitTermAux x).2 ++ [[]],
        printed_date_line_match l = false := by
      intro l hl
      rcases List.mem_append.mp hl with h | h
      · exact docket_scan_printed_free _ _ _ l h
      · simp only [List.mem_singleton] at h
        subst h
        decide
    have h1 : remove_docket_page_breaks (remove_docket_page_breaks x) =
        joinTerm ((splitTermAux (remove_docket_page_breaks x)).1 ::
          docket_scan (splitTermAux (remove_docket_page_breaks x)).1 false
            (splitTermAux (remove_docket_page_breaks x)).2) ++ ['\n'] := rfl
    rw [h1, split_remove_docket x]
    dsimp only
    rw [docket_scan_id _ _ hfree]
    have h2 : (splitTermAux x).1 ::
        (docket_scan (splitTermAux x).1 false (splitTermAux x).2 ++ [[]]) =
        ((splitTermAux x).1 ::
          docket_scan (splitTermAux x).1 false (splitTermAux x).2) ++ [[]] := by
      simp
    rw [h2, joinTerm_append_nil]
    rfl
  · intro x hyp
    rw [split_remove_cs x] at hyp
    dsimp only at hyp
    have h1 : remove_court_summary_page_breaks (remove_court_summary_page_breaks x) =
        joinTerm ((splitTermAux (remove_court_summary_page_breaks x)).1 ::
          cs_scan (splitTermAux (remove_court_summary_page_breaks x)).1 false
            (splitTermAux (remove_court_summary_page_breaks x)).2) ++ ['\n'] := rfl
    rw [h1, split_remove_cs x]
    dsimp only
    rw [cs_scan_id _ _ hyp]
    have h2 : (splitTermAux x).1 ::
        (cs_scan (splitTermAux x).1 false (splitTermAux x).2 ++ [[]]) =
        ((splitTermAux x).1 ::
          cs_scan (splitTermAux x).1 false (splitTermAux x).2) ++ [[]] := by
      simp
    rw [h2, joinTerm_append_nil]
    rfl

/-- Witness for C3 at concrete inputs for both filters. -/
theorem claim3_witness :
    remove_docket_page_breaks (remove_docket_page_breaks (("C\nDocket[x]\n").toList))
      = remove_docket_page_breaks (("C\nDocket[x]\n").toList) ++ ['\n']
    ∧ remove_court_summary_page_breaks (remove_court_summary_page_breaks
        (("B\nCourt Summary[x]\n").toList))
      = remove_court_summary_page_breaks (("B\nCourt Summary[x]\n").toList) ++ ['\n'] :=
  ⟨claim3_filter_twice.1 (("C\nDocket[x]\n").toList),
   claim3_filter_twice.2 (("B\nCourt Summary[x]\n").toList) (by decide)⟩

/-- C1 counterexample: on a two-page docket text with a printed-date line
followed by a line matching the versus pattern, the filter does not keep the
versus line: it is absent from the filtered output. -/
theorem claim1_cex :
    printed_date_line_match (("Printed: 1/1/2020 [x]").toList) = true
    ∧ versus_line_match (("v. [x]").toList) = true
    ∧ (("v. [x]").toList) ∈
        splitTerm (("A\nPrinted: 1/1/2020 [x]\nv. [x]\nB[x]\n").toList)
    ∧ (("v. [x]").toList) ∉
        splitTerm (remove_docket_page_breaks
          (("A\nPrinted: 1/1/2020 [x]\nv. [x]\nB[x]\n").toList)) :=
  ⟨by decide, by decide, by decide, by decide⟩

/-- C1 (amended): upon matching a printed-date line the docket filter drops
that line and every subsequent line up to and including the first line
matching the versus pattern, and also the line immediately after it; body
content resumes only at the second line after the versus match.  The versus
line is not kept. -/
theorem claim1_docket_page_break_region
    (l0 P V B : List Char) (mid post : List (List Char))
    (hnl : ∀ l ∈ l0 :: P :: (mid ++ V :: B :: post), '\n' ∉ l)
    (hP : printed_date_line_match P = true)
    (hmid : ∀ m ∈ P :: mid, versus_line_match m = false)
    (hV : versus_line_match V = true)
    (hpost : ∀ l ∈ post, printed_date_line_match l = false) :
    remove_docket_page_breaks (joinTerm (l0 :: P :: (mid ++ V :: B :: post)))
      = joinTerm (l0 :: post) ++ ['\n'] := by
  have hsp := splitTermAux_joinTerm (P :: (mid ++ V :: B :: post)) l0 hnl
  have h1 : remove_docket_page_breaks (joinTerm (l0 :: P :: (mid ++ V :: B :: post))) =
      joinTerm ((splitTermAux (joinTerm (l0 :: P :: (mid ++ V :: B :: post)))).1 ::
        docket_scan (splitTermAux (joinTerm (l0 :: P :: (mid ++ V :: B :: post)))).1 false
          (splitTermAux (joinTerm (l0 :: P :: (mid ++ V :: B :: post)))).2) ++ ['\n'] := rfl
  rw [h1, hsp]
  dsimp only
  have hPv : versus_line_match P = false := hmid P (List.mem_cons_self P mid)
  have hmid2 : ∀ m ∈ mid, versus_line_match m = false :=
    fun m hm => hmid m (List.mem_cons_of_mem P hm)
  have hscan : docket_scan l0 false (P :: (mid ++ V :: B :: post)) = post := by
    simp only [docket_scan]
    rw [if_pos hP, docket_scan_break mid P hPv hmid2 V B post hV,
      docket_scan_id post B hpost]
  rw [hscan]

/-- Witness for C1: a concrete six-line docket text with one junk line
inside the break; everything from the printed-date line through the line
after the versus line is dropped. -/
theorem claim1_witness :
    remove_docket_page_breaks (joinTerm [("Caption[x]").toList,
      ("Printed: 1/1/2020 [x]").toList, ("Junk[x]").toList, ("v. [x]").toList,
      ("Body[x]").toList, ("Rest[x]").toList, []])
      = joinTerm [("Caption[x]").toList, ("Rest[x]").toList, []] ++ ['\n'] :=
  claim1_docket_page_break_region (("Caption[x]").toList)
    (("Printed: 1/1/2020 [x]").toList) (("v. [x]").toList) (("Body[x]").toList)
    [("Junk[x]").toList] [("Rest[x]").toList, []]
    (by decide) (by decide) (by decide) (by decide) (by decide)

/-- C7 counterexample: a document whose type is determined from its second
line, but whose second line also matches the printed-date pattern, fails
re-detection after page-break filtering instead of yielding the same type. -/
theorem claim7_cex :
    get_document_type (("A\nPrinted: 1/1/2020 docket[x]\n").toList) = .ok .DOCKET
    ∧ (remove_page_breaks (("A\nPrinted: 1/1/2020 docket[x]\n").toList)).bind
        get_document_type = .error .parseError :=
  ⟨by decide, by decide⟩

/-- C7 (amended): if the document type is determined from the second line
and that second line does not match the printed-date pattern, then
re-detecting the type on the output of the type-specific page-break filter
yields the same type. -/
theorem claim7_roundtrip (x : List Char) (dt : DocumentType)
    (h1 : get_document_type x = .ok dt)
    (h2 : ∀ l2 rest, (splitTermAux x).2 = l2 :: rest →
      printed_date_line_match l2 = false) :
    (remove_page_breaks x).bind get_document_type = .ok dt := by
  cases hsnd : (splitTermAux x).2 with
  | nil =>
    rw [get_document_type, hsnd] at h1
    exact Except.noConfusion h1
  | cons l2 rest =>
    have hp : printed_date_line_match l2 = false := h2 l2 rest hsnd
    rw [get_document_type_cons x l2 rest hsnd] at h1
    by_cases hd : isSubstring (("docket").toList) (pyLower l2) = true
    · rw [if_pos hd] at h1
      have hdt : DocumentType.DOCKET = dt := by
        injection h1
      subst hdt
      have hgdt : get_document_type x = .ok .DOCKET := by
        rw [get_document_type_cons x l2 rest hsnd, if_pos hd]
      have hrp : remove_page_breaks x = .ok (remove_docket_page_breaks x) := by
        rw [remove_page_breaks, hgdt]
      rw [hrp]
      show get_document_type (remove_docket_page_breaks x) = .ok .DOCKET
      have hsnd2 : (splitTermAux (remove_docket_page_breaks x)).2
          = l2 :: (docket_scan l2 false rest ++ [[]]) := by
        rw [split_remove_docket x]
        dsimp only
        rw [hsnd]
        simp only [docket_scan]
        rw [if_neg (by simp [hp])]
        simp
      rw [get_document_type_cons _ l2 _ hsnd2, if_pos hd]
    · rw [if_neg hd] at h1
      by_cases hc : isSubstring (("court summary").toList) (pyLower l2) = true
      · rw [if_pos hc] at h1
        have hdt : DocumentType.COURT_SUMMARY = dt := by
          injection h1
        subst hdt
        have hgdt : get_document_type x = .ok .COURT_SUMMARY := by
          rw [get_document_type_cons x l2 rest hsnd, if_neg hd, if_pos hc]
        have hrp : remove_page_breaks x = .ok (remove_court_summary_page_breaks x) := by
          rw [remove_page_breaks, hgdt]
        rw [hrp]
        show get_document_type (remove_court_summary_page_breaks x) = .ok .COURT_SUMMARY
        have hsnd2 : (splitTermAux (remove_court_summary_page_breaks x)).2
            = l2 :: (cs_scan l2 false rest ++ [[]]) := by
          rw [split_remove_cs x]
          dsimp only
          rw [hsnd]
          simp only [cs_scan]
          rw [if_neg (by simp [hp])]
          simp
        rw [get_document_type_cons _ l2 _ hsnd2, if_neg hd, if_pos hc]
      · rw [if_neg hc] at h1
        exact absurd h1 (by simp)

/-- Witness for C7: a well-formed docket text round-trips to the same
detected type. -/
theorem claim7_witness :
    (remove_page_breaks (("A\nCriminal Docket[x]\n").toList)).bind get_document_type
      = .ok .DOCKET :=
  claim7_roundtrip (("A\nCriminal Docket[x]\n").toList) .DOCKET (by decide)
    (fun l2 rest h => by
      have hc : (splitTermAux (("A\nCriminal Docket[x]\n").toList)).2
          = (("Criminal Docket[x]").toList) :: [[]] := by decide
      rw [hc] at h
      injection h with hone _
      rw [← hone]
      decide)

end DocketParser
